import Mathlib

/-!
Verification development for the youtube chapter-description parsing engine
(src/index.js).  The engine is embedded shallowly:

* JavaScript regular expressions are embedded as an explicit `RE` syntax tree
  together with a backtracking matcher `reMatches` that returns the list of
  all possible outcomes in JavaScript priority order (alternatives tried left
  to right, greedy quantifiers longest first, lazy quantifiers shortest
  first), so that the head of the list is exactly the match a JavaScript
  engine produces.  Character classes follow ECMAScript: `\d` is `[0-9]`,
  `\s` is the ECMAScript whitespace set, `.` is any character except a line
  terminator.
* Every source regex is written down as an `RE` value mirroring its text.
  All source patterns are anchored at the start with a caret; for a regex
  without the multiline flag the caret is embedded by matching from
  position 0 only and the dollar anchor (`RE.endA`) matches only at the end
  of the input.  The multiline flag — the `RE.multiline` root marker,
  added by `addM` and carried by the lawful and parens start patterns —
  lets the caret also match right after any line terminator character and
  the dollar anchor also match right before one.  The lines these regexes
  are tested against are produced by splitting on the newline character,
  so they contain no newline but may retain a carriage return (a line
  terminator), which makes the flag observable; it is modelled exactly.
* `parseFlexibleTimestamps`, `skipEmptyLines`, `makeChapterParser`, the six
  format parsers and `parseYouTubeChapters` are translated line by line from
  src/index.js.
-/

/-- ECMAScript `\d`: the ASCII digits. -/
def isDigitCh (c : Char) : Bool := decide ('0' ≤ c ∧ c ≤ '9')

/-- ECMAScript `\s` (WhiteSpace union LineTerminator), also the set trimmed
by `String.prototype.trim`. -/
def isJsSpace (c : Char) : Bool :=
  decide (c = ' ' ∨ c = '\t' ∨ c = '\n' ∨ c = '\x0b' ∨ c = '\x0c' ∨ c = '\r' ∨
    c = '\u00A0' ∨ c = '\u1680' ∨ ('\u2000' ≤ c ∧ c ≤ '\u200A') ∨
    c = '\u2028' ∨ c = '\u2029' ∨ c = '\u202F' ∨ c = '\u205F' ∨
    c = '\u3000' ∨ c = '\uFEFF')

/-- ECMAScript `.` (without the dotAll flag): any character that is not a
line terminator. -/
def isDotCh (c : Char) : Bool :=
  decide (¬ (c = '\n' ∨ c = '\r' ∨ c = '\u2028' ∨ c = '\u2029'))

/-- ECMAScript LineTerminator: the characters right after which a multiline
caret matches and right before which a multiline dollar matches. -/
def isLineTerm (c : Char) : Bool :=
  decide (c = '\n' ∨ c = '\r' ∨ c = '\u2028' ∨ c = '\u2029')

/-- The character classes appearing in the source regexes. -/
inductive CharCls where
  | digit
  | space
  | dot
deriving DecidableEq, Repr

def CharCls.test : CharCls → Char → Bool
  | .digit, c => isDigitCh c
  | .space, c => isJsSpace c
  | .dot, c => isDotCh c

/-- Syntax of the (fragment of) ECMAScript regexes used by src/index.js.
`chr` is a literal character, `cls` a character class, `opt` a greedy
question mark, `starG` a greedy star, `starL` a lazy star, `group i` a
numbered capturing group, and `endA` the dollar anchor: end of input, or,
under the multiline flag, also right before a line terminator.  The
`multiline` constructor is a root marker recording that the regex carries
the multiline flag (it is what `addM` adds); it affects where the implicit
leading caret may match and how `endA` behaves. -/
inductive RE where
  | eps
  | chr (c : Char)
  | cls (k : CharCls)
  | cat (a b : RE)
  | alt (a b : RE)
  | opt (a : RE)
  | starG (a : RE)
  | starL (a : RE)
  | group (idx : Nat) (a : RE)
  | endA
  | multiline (a : RE)
deriving DecidableEq, Repr

/-- Capture state: list of (group index, captured characters), most recent
first.  Overwrites are modelled by prepending, lookups take the most recent
binding, and backtracking is modelled by the purely functional threading of
the state, exactly as in the functional ECMAScript matching semantics. -/
abbrev Caps := List (Nat × List Char)

def capLookup (caps : Caps) (i : Nat) : Option (List Char) :=
  (caps.find? (fun p => p.1 = i)).map (fun p => p.2)

/-- Size of a regex syntax tree, used to bound the matcher recursion. -/
def reSize : RE → Nat
  | .eps => 1
  | .chr _ => 1
  | .cls _ => 1
  | .cat a b => reSize a + reSize b + 1
  | .alt a b => reSize a + reSize b + 1
  | .opt a => reSize a + 1
  | .starG a => reSize a + 1
  | .starL a => reSize a + 1
  | .group _ a => reSize a + 1
  | .endA => 1
  | .multiline a => reSize a + 1

/-- Backtracking matcher.  `reMatches mflag fuel re s caps` is the list of
all outcomes `(remaining input, captures)` of matching `re` at the start of
`s`, in JavaScript backtracking priority order, so the head of the list is
the outcome an ECMAScript engine commits to.  `mflag` records whether the
regex being matched carries the multiline flag: it is seeded `false`, set
to `true` when the match passes the `multiline` root marker, and consulted
only by the dollar anchor, which under the flag also matches right before
a line terminator.  A star iteration whose body consumes nothing is
discarded (the ECMAScript empty-repetition check), so a star re-enters
only on a strictly shorter string.  The fuel decreases at every recursive
call and every recursive call strictly decreases `s.length + reSize re`
(sub-expressions are smaller at the same string, star re-entry keeps the
expression on a shorter string), hence a fuel exceeding
`s.length + reSize re` never runs out and the function is structurally
recursive, so it evaluates by kernel reduction. -/
def reMatches : Bool → Nat → RE → List Char → Caps → List (List Char × Caps)
  | _, 0, _, _, _ => []
  | mflag, fuel + 1, re, s, caps =>
    match re with
    | .eps => [(s, caps)]
    | .endA =>
      match s with
      | [] => [(s, caps)]
      | c :: _ => if mflag && isLineTerm c then [(s, caps)] else []
    | .chr c =>
      match s with
      | [] => []
      | a :: rest => if a = c then [(rest, caps)] else []
    | .cls k =>
      match s with
      | [] => []
      | a :: rest => if k.test a then [(rest, caps)] else []
    | .cat a b =>
      (reMatches mflag fuel a s caps).flatMap
        (fun rc => reMatches mflag fuel b rc.1 rc.2)
    | .alt a b =>
      reMatches mflag fuel a s caps ++ reMatches mflag fuel b s caps
    | .opt a => reMatches mflag fuel a s caps ++ [(s, caps)]
    | .group i a =>
      (reMatches mflag fuel a s caps).map
        (fun rc => (rc.1, (i, s.take (s.length - rc.1.length)) :: rc.2))
    | .starG a =>
      ((reMatches mflag fuel a s caps).filter
          (fun rc => rc.1.length < s.length)).flatMap
        (fun rc => reMatches mflag fuel (.starG a) rc.1 rc.2) ++ [(s, caps)]
    | .starL a =>
      (s, caps) ::
      ((reMatches mflag fuel a s caps).filter
          (fun rc => rc.1.length < s.length)).flatMap
        (fun rc => reMatches mflag fuel (.starL a) rc.1 rc.2)
    | .multiline a => reMatches true fuel a s caps

/-- Match `re` at position 0 (all source patterns are caret-anchored) and
return the JavaScript outcome: remaining input and captures.  The flag is
seeded `false`; when the root of `re` is the `multiline` marker the matcher
raises it there, so the dollar anchors inside behave per the flag. -/
def reExecAnchored (re : RE) (s : List Char) : Option (List Char × Caps) :=
  (reMatches false (s.length + reSize re + 1) re s []).head?

/-- Attempts of a caret-anchored multiline regex at every position right
after a line terminator character, left to right, as the multiline caret
allows. -/
def reTestAfterTerms (re : RE) (s : List Char) : Bool :=
  match s with
  | [] => false
  | c :: rest =>
    (isLineTerm c && (reExecAnchored re rest).isSome) ||
      reTestAfterTerms re rest

/-- `regex.test(line)` for a caret-anchored regex: without the multiline
flag the caret confines the scan to position 0; a regex carrying the flag
(a `multiline` root) may also match right after any line terminator left
inside the line (a carriage return from a CRLF ending survives the split
on the newline character). -/
def reTest (re : RE) (line : String) : Bool :=
  (reExecAnchored re line.data).isSome ||
    (match re with
     | .multiline _ => reTestAfterTerms re line.data
     | _ => false)

/-- Result of an unanchored `regex.exec(line)` scan: the text before the
match, the matched text, the text after it, and the captures. -/
structure ReMatch where
  pre : List Char
  matched : List Char
  post : List Char
  caps : Caps
deriving DecidableEq, Repr

/-- Unanchored scan, attempting a match at each position from left to
right, as `RegExp.prototype.exec` does for a pattern without anchors. -/
def reSearchAux (re : RE) (revPre : List Char) (s : List Char) :
    Option ReMatch :=
  match reExecAnchored re s with
  | some (rest, caps) =>
    some ⟨revPre.reverse, s.take (s.length - rest.length), rest, caps⟩
  | none =>
    match s with
    | [] => none
    | c :: rest => reSearchAux re (c :: revPre) rest

def reSearch (re : RE) (s : List Char) : Option ReMatch :=
  reSearchAux re [] s

/-- `line.replace(re, '')` for an unanchored regex without the global flag:
remove the first match, if any. -/
def replaceFirstMatch (re : RE) (s : List Char) : List Char :=
  match reSearch re s with
  | none => s
  | some m => m.pre ++ m.post

/-- `line.replace(re, '')` for a caret-anchored regex: the caret confines
the match to position 0, so only a match at the very start is removed. -/
def replaceStartMatch (re : RE) (s : List Char) : List Char :=
  match reExecAnchored re s with
  | none => s
  | some rc => rc.1

/-- Concatenation of a list of regex pieces, in order. -/
def rseq (l : List RE) : RE := l.foldr RE.cat RE.eps

/-- Greedy plus: `x+` is `x` followed by a greedy `x*`. -/
def rplus (a : RE) : RE := .cat a (.starG a)

/-- `\d+` -/
def dplus : RE := rplus (.cls .digit)

/-- `\s+` -/
def splus : RE := rplus (.cls .space)

/-- `\s*` -/
def sstar : RE := .starG (.cls .space)

/-- First alternative of the timestamp regex of `parseFlexibleTimestamps`:
`\[\s*(?:(\d+):)?(\d+):(\d+)\s*\]` with capture groups 1, 2, 3. -/
def tsBracketAlt : RE :=
  rseq [.chr '[', sstar, .opt (rseq [.group 1 dplus, .chr ':']),
    .group 2 dplus, .chr ':', .group 3 dplus, sstar, .chr ']']

/-- Second alternative: `\(\s*(?:(\d+):)?(\d+):(\d+)\s*\)` with capture
groups 4, 5, 6. -/
def tsParenAlt : RE :=
  rseq [.chr '(', sstar, .opt (rseq [.group 4 dplus, .chr ':']),
    .group 5 dplus, .chr ':', .group 6 dplus, sstar, .chr ')']

/-- Third alternative: bare `(?:(\d+):)?(\d+):(\d+)` with capture groups
7, 8, 9. -/
def tsBareAlt : RE :=
  rseq [.opt (rseq [.group 7 dplus, .chr ':']),
    .group 8 dplus, .chr ':', .group 9 dplus]

/-- The combined timestamp regex of `parseFlexibleTimestamps`:
`(?:\[\s*(?:(\d+):)?(\d+):(\d+)\s*\]|\(\s*(?:(\d+):)?(\d+):(\d+)\s*\)|(?:(\d+):)?(\d+):(\d+))`,
alternatives tried left to right. -/
def timestampRegex : RE := .alt tsBracketAlt (.alt tsParenAlt tsBareAlt)

/-- The ordinal-stripping regex `/^\d+\.\s*/` used on the timestamp-stripped
line (note the starred, hence possibly empty, trailing whitespace). -/
def ordinalRx : RE := rseq [dplus, .chr '.', sstar]

/-- The part of `ordinalRx` after the leading digits: the dot and the
starred whitespace (`ordinalRx` is definitionally `.cat dplus ordTail`). -/
def ordTail : RE := .cat (.chr '.') (.cat sstar .eps)

/-- `parseInt(str, 10)` restricted to the non-empty all-digit strings that
the capture groups of the timestamp regex can produce. -/
def parseIntDigits (s : List Char) : Nat :=
  s.foldl (fun a c => 10 * a + (c.toNat - Char.toNat '0')) 0

/-- `String.prototype.trim`. -/
def jsTrimList (s : List Char) : List Char :=
  ((s.dropWhile isJsSpace).reverse.dropWhile isJsSpace).reverse

def jsTrimStr (s : String) : String := String.mk (jsTrimList s.data)

/-- Result of `parseFlexibleTimestamps`: total seconds and title text. -/
structure FlexResult where
  timestamp : Nat
  title : String
deriving DecidableEq, Repr

/-- `match[a] || match[b] || match[c] || '0'` from src/index.js lines 69-71:
the first defined capture among the three positions for one timestamp
component, defaulting to the digit string `'0'`.  An existing capture of the
timestamp regex is a non-empty digit string, hence never falsy. -/
def tsComponent (caps : Caps) (a b c : Nat) : List Char :=
  (capLookup caps a <|> capLookup caps b <|> capLookup caps c).getD ['0']

/-- src/index.js lines 59-78, `parseFlexibleTimestamps(line)`: find the
first flexible timestamp in the line; if none, timestamp 0 and the whole
line as title; otherwise total seconds `hours*3600 + minutes*60 + seconds`
and the title obtained by removing the matched timestamp substring, then a
leading ordinal (`/^\d+\.\s*/`), then trimming. -/
def parseFlexibleTimestamps (line : String) : FlexResult :=
  match reSearch timestampRegex line.data with
  | none => { timestamp := 0, title := line }
  | some m =>
    let hours := parseIntDigits (tsComponent m.caps 1 4 7)
    let minutes := parseIntDigits (tsComponent m.caps 2 5 8)
    let seconds := parseIntDigits (tsComponent m.caps 3 6 9)
    let timestamp := hours * 3600 + minutes * 60 + seconds
    let title :=
      jsTrimStr
        (String.mk (replaceStartMatch ordinalRx
          (replaceFirstMatch timestampRegex line.data)))
    { timestamp, title }

/-- `description.split('\n')` on character lists: JavaScript split keeps
empty pieces between consecutive separators and at the ends. -/
def splitNl (s : List Char) : List (List Char) :=
  match s with
  | [] => [[]]
  | c :: rest =>
    let r := splitNl rest
    if c = '\n' then [] :: r
    else
      match r with
      | [] => [[c]]
      | h :: t => (c :: h) :: t

/-- src/index.js lines 86-88, `skipEmptyLines(description)`: split on the
newline character and drop the lines that trim to the empty string. -/
def skipEmptyLines (description : String) : List String :=
  ((splitNl description.data).map String.mk).filter
    (fun line => jsTrimStr line ≠ "")

/-- A produced chapter: start time in seconds and title. -/
structure Chapter where
  start : Nat
  title : String
deriving DecidableEq, Repr

/-- src/index.js lines 17-51, `makeChapterParser(startRx, lineRx,
timestampIndex, textIndex)`: find the first non-empty line on which the
start regex tests true; from it to the end, every line matched by the line
regex contributes one chapter whose value is re-derived by
`parseFlexibleTimestamps` on the whole line.  The two capture indexes are
incremented once and never used afterwards, as in the source. -/
def makeChapterParser (startRx lineRx : RE) (timestampIndex textIndex : Nat) :
    String → List Chapter :=
  let _timestampIndex := timestampIndex + 1
  let _textIndex := textIndex + 1
  fun description =>
    let nonEmptyLines := skipEmptyLines description
    match nonEmptyLines.findIdx? (fun line => reTest startRx line) with
    | none => []
    | some firstTimestamp =>
      let chapterLines := nonEmptyLines.drop firstTimestamp
      chapterLines.foldl
        (fun chapters line =>
          match reExecAnchored lineRx line.data with
          | none => chapters
          | some _ =>
            let r := parseFlexibleTimestamps line
            chapters ++ [{ start := r.timestamp, title := jsTrimStr r.title }])
        []

/-- src/index.js lines 96-101, `addM`: add the multiline flag if it is not
already present, leaving the regex unchanged otherwise.  The flag is the
`multiline` root marker: it lets the leading caret also match right after
a line terminator and the dollar anchor also match right before one. -/
def addM (regex : RE) : RE :=
  match regex with
  | .multiline _ => regex
  | _ => .multiline regex

/-- `/^0?0:00/m` (the literal carries the multiline flag) -/
def lawfulStartRx : RE :=
  .multiline (rseq [.opt (.chr '0'), .chr '0', .chr ':', .chr '0', .chr '0'])

/-- `/^(?:(\d+):)?(\d+):(\d+)\s+(.*?)$/` -/
def lawfulLineRx : RE :=
  rseq [.opt (rseq [.group 1 dplus, .chr ':']), .group 2 dplus, .chr ':',
    .group 3 dplus, splus, .group 4 (.starL (.cls .dot)), .endA]

/-- src/index.js line 104: the `$timestamp $title` format. -/
def lawfulParser : String → List Chapter :=
  makeChapterParser lawfulStartRx lawfulLineRx 0 3

/-- `/^\[(?:0?0:00|00:00)\]/` -/
def bracketsStartRx : RE :=
  rseq [.chr '[',
    .alt (rseq [.opt (.chr '0'), .chr '0', .chr ':', .chr '0', .chr '0'])
      (rseq [.chr '0', .chr '0', .chr ':', .chr '0', .chr '0']),
    .chr ']']

/-- `/^\[(?:(\d+):)?(\d+):(\d+)\]\s+(.*?)$/` -/
def bracketsLineRx : RE :=
  rseq [.chr '[', .opt (rseq [.group 1 dplus, .chr ':']), .group 2 dplus,
    .chr ':', .group 3 dplus, .chr ']', splus,
    .group 4 (.starL (.cls .dot)), .endA]

/-- src/index.js line 106: the `[$timestamp] $title` format. -/
def bracketsParser : String → List Chapter :=
  makeChapterParser bracketsStartRx bracketsLineRx 0 3

/-- `/^\(0?0:00\)/m` (the literal carries the multiline flag) -/
def parensStartRx : RE :=
  .multiline (rseq [.chr '(', .opt (.chr '0'), .chr '0', .chr ':', .chr '0',
    .chr '0', .chr ')'])

/-- `/^\((?:(\d+):)?(\d+):(\d+)\)\s+(.*?)$/` -/
def parensLineRx : RE :=
  rseq [.chr '(', .opt (rseq [.group 1 dplus, .chr ':']), .group 2 dplus,
    .chr ':', .group 3 dplus, .chr ')', splus,
    .group 4 (.starL (.cls .dot)), .endA]

/-- src/index.js line 108: the `($timestamp) $title` format. -/
def parensParser : String → List Chapter :=
  makeChapterParser parensStartRx parensLineRx 0 3

/-- `/^(?:\d+\.\s+)?(.*?)\s+(?:(\d+):)?(\d+):(\d+)$/` -/
def postfixRx : RE :=
  rseq [.opt (rseq [dplus, .chr '.', splus]), .group 1 (.starL (.cls .dot)),
    splus, .opt (rseq [.group 2 dplus, .chr ':']), .group 3 dplus, .chr ':',
    .group 4 dplus, .endA]

/-- src/index.js line 111: the `($track_id.) $title $timestamp` format; the
same regex is both start and line pattern. -/
def postfixParser : String → List Chapter :=
  makeChapterParser (addM postfixRx) postfixRx 1 0

/-- `/^(?:\d+\.\s+)?(.*?)\s+\(\s*(?:(\d+):)?(\d+):(\d+)\s*\)$/` -/
def postfixParenRx : RE :=
  rseq [.opt (rseq [dplus, .chr '.', splus]), .group 1 (.starL (.cls .dot)),
    splus, .chr '(', sstar, .opt (rseq [.group 2 dplus, .chr ':']),
    .group 3 dplus, .chr ':', .group 4 dplus, sstar, .chr ')', .endA]

/-- src/index.js line 114: the `($track_id.) $title ($timestamp)` format. -/
def postfixParenParser : String → List Chapter :=
  makeChapterParser (addM postfixParenRx) postfixParenRx 1 0

/-- `/^(?:\d+\.\s+)?(?:(\d+):)?(\d+):(\d+)\s+(.*)$/` -/
def prefixRx : RE :=
  rseq [.opt (rseq [dplus, .chr '.', splus]),
    .opt (rseq [.group 1 dplus, .chr ':']), .group 2 dplus, .chr ':',
    .group 3 dplus, splus, .group 4 (.starG (.cls .dot)), .endA]

/-- src/index.js line 117: the `$track_id. $timestamp $title` format. -/
def prefixParser : String → List Chapter :=
  makeChapterParser (addM prefixRx) prefixRx 0 3

/-- src/index.js lines 125-134, `parseYouTubeChapters(description)`: the
cascade trying the six format parsers in order and keeping the first
non-empty result. -/
def parseYouTubeChapters (description : String) : List Chapter :=
  let chapters := lawfulParser description
  let chapters :=
    if chapters.length = 0 then bracketsParser description else chapters
  let chapters :=
    if chapters.length = 0 then parensParser description else chapters
  let chapters :=
    if chapters.length = 0 then postfixParser description else chapters
  let chapters :=
    if chapters.length = 0 then postfixParenParser description else chapters
  let chapters :=
    if chapters.length = 0 then prefixParser description else chapters
  chapters

/-- The disambiguation policy in the spec's words: the first non-empty
result in a list of parser results, the empty sequence if all are empty. -/
def firstNonEmpty : List (List Chapter) → List Chapter
  | [] => []
  | r :: rest => if r = [] then firstNonEmpty rest else r

/-- The chapter contributed by one accepted line in the factory loop. -/
def chapterOfLine (line : String) : Chapter :=
  { start := (parseFlexibleTimestamps line).timestamp,
    title := jsTrimStr (parseFlexibleTimestamps line).title }

/-- The amended ordinal stripping in direct functional form: remove a
leading prefix made of one or more digits, a dot, and a possibly empty run
of whitespace; leave the line unchanged when it does not start with digits
followed by a dot. -/
def stripOrdSpec (s : List Char) : List Char :=
  if s.takeWhile isDigitCh = [] then s
  else
    match s.dropWhile isDigitCh with
    | '.' :: t => t.dropWhile isJsSpace
    | _ => s

theorem makeChapterParser_no_start (startRx lineRx : RE) (ti xi : Nat)
    (d : String) (h : ∀ line ∈ skipEmptyLines d, reTest startRx line = false) :
    makeChapterParser startRx lineRx ti xi d = [] := by
  unfold makeChapterParser
  simp only []
  rw [List.findIdx?_eq_none_iff.mpr h]

theorem foldl_chapter_step (lineRx : RE) (l : List String)
    (acc : List Chapter) :
    l.foldl
      (fun chapters line =>
        match reExecAnchored lineRx line.data with
        | none => chapters
        | some _ =>
          let r := parseFlexibleTimestamps line
          chapters ++ [{ start := r.timestamp, title := jsTrimStr r.title }])
      acc
    = acc ++
      (l.filter (fun line => (reExecAnchored lineRx line.data).isSome)).map
        chapterOfLine := by
  induction l generalizing acc with
  | nil => simp
  | cons hd tl ih =>
    simp only [List.foldl_cons, List.filter_cons]
    cases hE : reExecAnchored lineRx hd.data with
    | none => simp [hE, ih]
    | some v => simp [hE, ih, chapterOfLine]

/-- Claim C1: parseYouTubeChapters invokes the six format parsers in the
fixed order Lawful, Brackets, Parens, Postfix, Postfix-Paren, Prefix and
returns the result of the first parser yielding a non-empty list, never
consulting later parsers; in particular, when both the Lawful and the
Prefix parser produce a non-empty list, the Lawful result is returned. -/
theorem parseYouTubeChapters_cascade (d : String) :
    parseYouTubeChapters d =
      firstNonEmpty [lawfulParser d, bracketsParser d, parensParser d,
        postfixParser d, postfixParenParser d, prefixParser d] ∧
    (lawfulParser d ≠ [] → prefixParser d ≠ [] →
      parseYouTubeChapters d = lawfulParser d) := by
  constructor
  · by_cases h1 : lawfulParser d = [] <;>
      by_cases h2 : bracketsParser d = [] <;>
        by_cases h3 : parensParser d = [] <;>
          by_cases h4 : postfixParser d = [] <;>
            by_cases h5 : postfixParenParser d = [] <;>
              by_cases h6 : prefixParser d = [] <;>
                simp [parseYouTubeChapters, firstNonEmpty, h1, h2, h3, h4,
                  h5, h6, List.length_eq_zero]
  · intro h1 _h2
    simp [parseYouTubeChapters, List.length_eq_zero, h1]

theorem parseYouTubeChapters_cascade_witness :
    lawfulParser "0:00 Intro\n1:30 More" ≠ [] ∧
    prefixParser "0:00 Intro\n1:30 More" ≠ [] ∧
    parseYouTubeChapters "0:00 Intro\n1:30 More" =
      lawfulParser "0:00 Intro\n1:30 More" :=
  ⟨by decide, by decide,
    (parseYouTubeChapters_cascade "0:00 Intro\n1:30 More").2
      (by decide) (by decide)⟩

/-- Claim C3: a factory-built parser returns an empty sequence whenever no
non-empty line of the description tests true against its start pattern, and
consequently a non-empty description none of whose lines matches any of the
six start patterns makes parseYouTubeChapters return an empty sequence. -/
theorem no_start_pattern_empty :
    (∀ (startRx lineRx : RE) (ti xi : Nat) (d : String),
        (∀ line ∈ skipEmptyLines d, reTest startRx line = false) →
        makeChapterParser startRx lineRx ti xi d = []) ∧
    (∀ d : String, d ≠ "" →
        (∀ line ∈ skipEmptyLines d,
            reTest lawfulStartRx line = false ∧
            reTest bracketsStartRx line = false ∧
            reTest parensStartRx line = false ∧
            reTest (addM postfixRx) line = false ∧
            reTest (addM postfixParenRx) line = false ∧
            reTest (addM prefixRx) line = false) →
        parseYouTubeChapters d = []) := by
  refine ⟨makeChapterParser_no_start, ?_⟩
  intro d _hne h
  have h1 := makeChapterParser_no_start lawfulStartRx lawfulLineRx 0 3 d
    (fun line hm => (h line hm).1)
  have h2 := makeChapterParser_no_start bracketsStartRx bracketsLineRx 0 3 d
    (fun line hm => (h line hm).2.1)
  have h3 := makeChapterParser_no_start parensStartRx parensLineRx 0 3 d
    (fun line hm => (h line hm).2.2.1)
  have h4 := makeChapterParser_no_start (addM postfixRx) postfixRx 1 0 d
    (fun line hm => (h line hm).2.2.2.1)
  have h5 := makeChapterParser_no_start (addM postfixParenRx) postfixParenRx
    1 0 d (fun line hm => (h line hm).2.2.2.2.1)
  have h6 := makeChapterParser_no_start (addM prefixRx) prefixRx 0 3 d
    (fun line hm => (h line hm).2.2.2.2.2)
  simp [parseYouTubeChapters, lawfulParser, bracketsParser, parensParser,
    postfixParser, postfixParenParser, prefixParser, h1, h2, h3, h4, h5, h6]

theorem no_start_pattern_empty_witness :
    ("hello world" : String) ≠ "" ∧ parseYouTubeChapters "hello world" = [] :=
  ⟨by decide, no_start_pattern_empty.2 "hello world" (by decide) (by decide)⟩

/-- Claim C4: once the first line matching the start pattern is found, every
remaining non-empty line is tested against the line pattern; non-matching
lines are skipped without ending the scan, and each matching line
contributes exactly one chapter, in encounter order. -/
theorem makeChapterParser_scans_to_end (startRx lineRx : RE) (ti xi : Nat)
    (d : String) (i : Nat)
    (h : (skipEmptyLines d).findIdx? (fun line => reTest startRx line) =
      some i) :
    makeChapterParser startRx lineRx ti xi d =
      (((skipEmptyLines d).drop i).filter
        (fun line => (reExecAnchored lineRx line.data).isSome)).map
        chapterOfLine := by
  unfold makeChapterParser
  simp only []
  rw [h]
  simp only []
  rw [foldl_chapter_step]
  simp

theorem makeChapterParser_scans_to_end_witness :
    (skipEmptyLines "0:00 Intro\nJust a note\n1:30 End\nThanks!").findIdx?
      (fun line => reTest lawfulStartRx line) = some 0 ∧
    makeChapterParser lawfulStartRx lawfulLineRx 0 3
      "0:00 Intro\nJust a note\n1:30 End\nThanks!" =
      (((skipEmptyLines "0:00 Intro\nJust a note\n1:30 End\nThanks!").drop
        0).filter
        (fun line => (reExecAnchored lawfulLineRx line.data).isSome)).map
        chapterOfLine :=
  ⟨by decide,
    makeChapterParser_scans_to_end lawfulStartRx lawfulLineRx 0 3
      "0:00 Intro\nJust a note\n1:30 End\nThanks!" 0 (by decide)⟩

/-- Claim C5: a line in which none of the three timestamp shapes occurs is
turned into the untimed result with timestamp 0 and the entire original
line as the title. -/
theorem parseFlexibleTimestamps_no_shape (line : String)
    (h : reSearch timestampRegex line.data = none) :
    parseFlexibleTimestamps line = { timestamp := 0, title := line } := by
  unfold parseFlexibleTimestamps
  rw [h]

theorem parseFlexibleTimestamps_no_shape_witness :
    parseFlexibleTimestamps "hello world" =
      { timestamp := 0, title := "hello world" } :=
  parseFlexibleTimestamps_no_shape "hello world" (by decide)

/-- Claim C2: whenever the timestamp extractor finds a timestamp, the start
value is hours multiplied by 3600 plus minutes multiplied by 60 plus
seconds, computed literally over the captured digit strings with missing
hours defaulting to 0 and no clamping of minutes or seconds at 60; in
particular the line with timestamp 1:02:03 yields 3723, the line with
timestamp 2:05 yields 125 and the malformed 1:99 yields 159. -/
theorem parseFlexibleTimestamps_arith :
    (∀ (line : String) (m : ReMatch),
        reSearch timestampRegex line.data = some m →
        (parseFlexibleTimestamps line).timestamp =
          parseIntDigits (tsComponent m.caps 1 4 7) * 3600 +
          parseIntDigits (tsComponent m.caps 2 5 8) * 60 +
          parseIntDigits (tsComponent m.caps 3 6 9)) ∧
    parseFlexibleTimestamps "1:02:03 Intro" =
      { timestamp := 3723, title := "Intro" } ∧
    parseFlexibleTimestamps "2:05 Chapter Two" =
      { timestamp := 125, title := "Chapter Two" } ∧
    (parseFlexibleTimestamps "1:99").timestamp = 159 := by
  refine ⟨?_, by decide, by decide, by decide⟩
  intro line m h
  unfold parseFlexibleTimestamps
  rw [h]

theorem parseFlexibleTimestamps_arith_witness :
    (parseFlexibleTimestamps "1:02:03 Intro").timestamp =
      parseIntDigits
          (tsComponent [(9, ['0', '3']), (8, ['0', '2']), (7, ['1'])] 1 4 7) *
          3600 +
        parseIntDigits
          (tsComponent [(9, ['0', '3']), (8, ['0', '2']), (7, ['1'])] 2 5 8) *
          60 +
        parseIntDigits
          (tsComponent [(9, ['0', '3']), (8, ['0', '2']), (7, ['1'])] 3 6 9) :=
  parseFlexibleTimestamps_arith.1 "1:02:03 Intro"
    ⟨[], ['1', ':', '0', '2', ':', '0', '3'],
      [' ', 'I', 'n', 't', 'r', 'o'],
      [(9, ['0', '3']), (8, ['0', '2']), (7, ['1'])]⟩ (by decide)

/-- Claim C9: value extraction uses the first timestamp-shaped substring
anywhere in the line, not the line-final one the Postfix line pattern
designates: on the line with title text containing 1:00 and 2:00 before the
trailing 5:00, the produced start is 60 seconds (the in-title 1:00), not
300, and the removed substring is the earlier one (the title keeps 5:00). -/
theorem postfix_first_timestamp_wins :
    postfixParser "1:00 to 2:00 recap 5:00" =
      [{ start := 60, title := "to 2:00 recap 5:00" }] ∧
    (60 : Nat) ≠ 300 :=
  ⟨by decide, by decide⟩

/-- Claim C8: parseYouTubeChapters is a pure function of the input string:
equal inputs give chapter sequences of equal length that agree on start and
title at every position.  The embedding is purely functional and the source
has no mutable state shared across calls (no regex carries the global or
sticky flag, so no lastIndex state is consulted), which this theorem
records. -/
theorem parseYouTubeChapters_pure (d1 d2 : String) (h : d1 = d2) :
    (parseYouTubeChapters d1).length = (parseYouTubeChapters d2).length ∧
    ∀ (i : Nat) (hi1 : i < (parseYouTubeChapters d1).length)
      (hi2 : i < (parseYouTubeChapters d2).length),
      ((parseYouTubeChapters d1).get ⟨i, hi1⟩).start =
        ((parseYouTubeChapters d2).get ⟨i, hi2⟩).start ∧
      ((parseYouTubeChapters d1).get ⟨i, hi1⟩).title =
        ((parseYouTubeChapters d2).get ⟨i, hi2⟩).title := by
  subst h
  exact ⟨rfl, fun i hi1 hi2 => ⟨rfl, rfl⟩⟩

theorem parseYouTubeChapters_pure_witness :
    (parseYouTubeChapters "0:00 Intro").length =
      (parseYouTubeChapters "0:00 Intro").length ∧
    ∀ (i : Nat) (hi1 : i < (parseYouTubeChapters "0:00 Intro").length)
      (hi2 : i < (parseYouTubeChapters "0:00 Intro").length),
      ((parseYouTubeChapters "0:00 Intro").get ⟨i, hi1⟩).start =
        ((parseYouTubeChapters "0:00 Intro").get ⟨i, hi2⟩).start ∧
      ((parseYouTubeChapters "0:00 Intro").get ⟨i, hi1⟩).title =
        ((parseYouTubeChapters "0:00 Intro").get ⟨i, hi2⟩).title :=
  parseYouTubeChapters_pure "0:00 Intro" "0:00 Intro" rfl

/-- Claim C7 fails on the code: the Brackets parser scans all non-empty
lines for its start pattern, not only the first one.  Here the first
non-empty line does not match the Brackets start pattern, a later line
does, and the parser returns a non-empty chapter list instead of the empty
sequence the claim requires. -/
theorem brackets_later_start_counterexample :
    reTest bracketsStartRx "Text intro" = false ∧
    bracketsParser "Text intro\n[0:00] Start" =
      [{ start := 0, title := "Start" }] :=
  ⟨by decide, by decide⟩

/-- Claim C7 amended: the Brackets format is judged applicable when any
non-empty line (not necessarily the first) starts with the bracketed zero
timestamp; when no non-empty line matches the start pattern the Brackets
parser returns an empty sequence, and a description whose first matching
line comes after non-matching text is parsed from that line on. -/
theorem brackets_start_any_line :
    (∀ d : String,
        (∀ line ∈ skipEmptyLines d, reTest bracketsStartRx line = false) →
        bracketsParser d = []) ∧
    bracketsParser "Text intro\n[0:00] Start" =
      [{ start := 0, title := "Start" }] :=
  ⟨fun d h => makeChapterParser_no_start bracketsStartRx bracketsLineRx
    0 3 d h, by decide⟩

theorem brackets_start_any_line_witness :
    bracketsParser "no chapters here" = [] :=
  brackets_start_any_line.1 "no chapters here" (by decide)

/-- Claim C10 fails on the code at its own example: joining the lines of
the example with a carriage return and newline does not give an empty
result; the first line keeps a trailing carriage return and loses its
chapter, but the final line (which gains no carriage return) still matches
the Postfix pattern, so one chapter is produced. -/
theorem crlf_example_counterexample :
    parseYouTubeChapters "Intro 0:00\nMiddle Bit 1:30" =
      [{ start := 0, title := "Intro" },
        { start := 90, title := "Middle Bit" }] ∧
    parseYouTubeChapters "Intro 0:00\r\nMiddle Bit 1:30" =
      [{ start := 90, title := "Middle Bit" }] :=
  ⟨by decide, by decide⟩

/-- Claim C10 amended: line splitting is on the newline character only, so
carriage-return-newline endings leave a trailing carriage return that the
end-anchored line patterns cannot match; for the lines of the description
with a chapter line followed by trailing text, the newline-joined form
parses to a non-empty chapter list while the carriage-return-newline-joined
form makes parseYouTubeChapters return an empty sequence. -/
theorem crlf_amended :
    parseYouTubeChapters "Intro 0:00\ntrailing text" =
      [{ start := 0, title := "Intro" }] ∧
    parseYouTubeChapters "Intro 0:00\r\ntrailing text" = [] :=
  ⟨by decide, by decide⟩

/-- Claim C6 fails on the code: the ordinal-stripping pattern ends in a
starred whitespace, so a leading digits-and-dot prefix is stripped even
when no whitespace follows the dot.  On this line the timestamp-stripped
text starts with digits and a dot followed directly by a letter, and the
prefix is stripped anyway: the title is Intro, not the 1.Intro the claim
requires. -/
theorem ordinal_strip_counterexample :
    parseFlexibleTimestamps "1.Intro 0:00" =
      { timestamp := 0, title := "Intro" } ∧
    ("Intro" : String) ≠ "1.Intro" :=
  ⟨by decide, by decide⟩

theorem reMatches_zero (mflag : Bool) (re : RE) (s : List Char)
    (caps : Caps) :
    reMatches mflag 0 re s caps = [] := rfl

theorem reMatches_eps (mflag : Bool) (s : List Char) (caps : Caps)
    (fuel : Nat) :
    reMatches mflag (fuel + 1) .eps s caps = [(s, caps)] := rfl

theorem reMatches_chr (mflag : Bool) (c : Char) (s : List Char) (caps : Caps)
    (fuel : Nat) :
    reMatches mflag (fuel + 1) (.chr c) s caps =
      (match s with
       | [] => []
       | a :: rest => if a = c then [(rest, caps)] else []) := rfl

theorem reMatches_cls (mflag : Bool) (k : CharCls) (s : List Char)
    (caps : Caps) (fuel : Nat) :
    reMatches mflag (fuel + 1) (.cls k) s caps =
      (match s with
       | [] => []
       | a :: rest => if k.test a then [(rest, caps)] else []) := rfl

theorem reMatches_cat (mflag : Bool) (a b : RE) (s : List Char) (caps : Caps)
    (fuel : Nat) :
    reMatches mflag (fuel + 1) (.cat a b) s caps =
      (reMatches mflag fuel a s caps).flatMap
        (fun rc => reMatches mflag fuel b rc.1 rc.2) := rfl

theorem reMatches_starG (mflag : Bool) (a : RE) (s : List Char) (caps : Caps)
    (fuel : Nat) :
    reMatches mflag (fuel + 1) (.starG a) s caps =
      ((reMatches mflag fuel a s caps).filter
          (fun rc => rc.1.length < s.length)).flatMap
        (fun rc => reMatches mflag fuel (.starG a) rc.1 rc.2) ++
      [(s, caps)] := rfl

theorem digit_test_eq : CharCls.digit.test = isDigitCh := rfl

theorem space_test_eq : CharCls.space.test = isJsSpace := rfl

theorem dropWhile_eq_drop_len (p : Char → Bool) (s : List Char) :
    s.dropWhile p = s.drop (s.takeWhile p).length := by
  induction s with
  | nil => rfl
  | cons c t ih =>
    by_cases hc : p c
    · simp [List.dropWhile_cons, List.takeWhile_cons, hc, ih]
    · simp [List.dropWhile_cons, List.takeWhile_cons, hc]

theorem drop_head_sat (p : Char → Bool) (s : List Char) (m : Nat)
    (hm : m < (s.takeWhile p).length) :
    ∃ c t, s.drop m = c :: t ∧ p c = true := by
  induction s generalizing m with
  | nil => simp at hm
  | cons a t ih =>
    by_cases hc : p a
    · cases m with
      | zero => exact ⟨a, t, rfl, hc⟩
      | succ m =>
        have hm2 : m < (t.takeWhile p).length := by
          simp [List.takeWhile_cons, hc] at hm
          omega
        exact ih m hm2
    · simp [List.takeWhile_cons, hc] at hm

theorem reMatches_starG_cls (mflag : Bool) (k : CharCls) :
    ∀ (s : List Char) (caps : Caps) (fuel : Nat), s.length + 2 ≤ fuel →
    reMatches mflag fuel (.starG (.cls k)) s caps =
      ((List.range (s.takeWhile k.test).length).map
        (fun j => (s.drop ((s.takeWhile k.test).length - j), caps))) ++
      [(s, caps)] := by
  intro s
  induction s with
  | nil =>
    intro caps fuel hf
    match fuel, hf with
    | f + 1, hf =>
      rw [reMatches_starG]
      cases f with
      | zero => simp [reMatches_zero]
      | succ f2 => rw [reMatches_cls]; simp
  | cons c t ih =>
    intro caps fuel hf
    match fuel, hf with
    | f + 1, hf =>
      rw [reMatches_starG]
      have hf1 : t.length + 2 ≤ f := by
        simp only [List.length_cons] at hf
        omega
      match f, hf1 with
      | f2 + 1, hf2 =>
        rw [reMatches_cls]
        by_cases hc : k.test c
        · simp only [hc, if_true]
          rw [List.filter_cons_of_pos (by simp)]
          simp only [List.filter_nil, List.flatMap_cons, List.flatMap_nil,
            List.append_nil]
          rw [ih caps (f2 + 1) (by omega)]
          rw [List.takeWhile_cons_of_pos hc]
          simp only [List.length_cons, List.range_succ, List.map_append,
            List.map_cons, List.map_nil]
          have hdrop : ∀ j ∈ List.range (t.takeWhile k.test).length,
              ((c :: t).drop ((t.takeWhile k.test).length + 1 - j), caps) =
              (t.drop ((t.takeWhile k.test).length - j), caps) := by
            intro j hj
            rw [List.mem_range] at hj
            have he : (t.takeWhile k.test).length + 1 - j =
                ((t.takeWhile k.test).length - j) + 1 := by omega
            rw [he, List.drop_succ_cons]
          rw [List.map_congr_left hdrop]
          have hlast : (t.takeWhile k.test).length + 1 -
              (t.takeWhile k.test).length = 1 := by omega
          rw [hlast, List.drop_succ_cons, List.drop_zero, List.append_assoc]
        · simp only [hc, if_false]
          rw [List.takeWhile_cons_of_neg hc]
          simp

theorem reMatches_dplus (mflag : Bool) (s : List Char) (caps : Caps)
    (fuel : Nat) (hf : s.length + 4 ≤ fuel) :
    reMatches mflag fuel dplus s caps =
      (List.range (s.takeWhile isDigitCh).length).map
        (fun j => (s.drop ((s.takeWhile isDigitCh).length - j), caps)) := by
  match fuel, hf with
  | f + 1, hf =>
    rw [show dplus = RE.cat (.cls .digit) (.starG (.cls .digit)) from rfl]
    rw [reMatches_cat]
    match f, (by omega : s.length + 3 ≤ f) with
    | f2 + 1, hf2 =>
      rw [reMatches_cls]
      cases s with
      | nil => simp
      | cons c t =>
        by_cases hc : isDigitCh c
        · have hck : CharCls.digit.test c = true := hc
          simp only [hck, if_true, List.flatMap_cons, List.flatMap_nil,
            List.append_nil]
          have ht : t.length + 2 ≤ f2 + 1 := by
            simp only [List.length_cons] at hf2
            omega
          rw [reMatches_starG_cls mflag .digit t caps (f2 + 1) ht]
          rw [digit_test_eq]
          rw [List.takeWhile_cons_of_pos hc]
          simp only [List.length_cons, List.range_succ, List.map_append,
            List.map_cons, List.map_nil]
          have hdrop : ∀ j ∈ List.range (t.takeWhile isDigitCh).length,
              ((c :: t).drop ((t.takeWhile isDigitCh).length + 1 - j),
                caps) =
              (t.drop ((t.takeWhile isDigitCh).length - j), caps) := by
            intro j hj
            rw [List.mem_range] at hj
            have he : (t.takeWhile isDigitCh).length + 1 - j =
                ((t.takeWhile isDigitCh).length - j) + 1 := by omega
            rw [he, List.drop_succ_cons]
          rw [List.map_congr_left hdrop]
          have hlast : (t.takeWhile isDigitCh).length + 1 -
              (t.takeWhile isDigitCh).length = 1 := by omega
          rw [hlast, List.drop_succ_cons, List.drop_zero]
        · have hck : CharCls.digit.test c = false := by
            rw [digit_test_eq]; exact eq_false_of_ne_true (by simpa using hc)
          simp only [hck, if_false, List.flatMap_nil]
          rw [List.takeWhile_cons_of_neg hc]
          simp

theorem reMatches_ordTail_nodot (mflag : Bool) (r : List Char) (caps : Caps)
    (fuel : Nat) (h : r.head? ≠ some '.') :
    reMatches mflag fuel ordTail r caps = [] := by
  cases fuel with
  | zero => rfl
  | succ f =>
    rw [show ordTail = RE.cat (.chr '.') (.cat sstar .eps) from rfl]
    rw [reMatches_cat]
    cases f with
    | zero => rfl
    | succ f2 =>
      rw [reMatches_chr]
      cases r with
      | nil => rfl
      | cons c t =>
        have hc : (c = '.') = False := by
          simp only [eq_iff_iff, iff_false]
          intro he
          exact h (by rw [he]; rfl)
        simp [hc]

theorem reMatches_ordTail_dot (mflag : Bool) (t : List Char) (caps : Caps)
    (fuel : Nat) (hf : t.length + 5 ≤ fuel) :
    reMatches mflag fuel ordTail ('.' :: t) caps =
      ((List.range (t.takeWhile isJsSpace).length).map
        (fun j => (t.drop ((t.takeWhile isJsSpace).length - j), caps))) ++
      [(t, caps)] := by
  match fuel, hf with
  | f + 1, hf =>
    rw [show ordTail = RE.cat (.chr '.') (.cat sstar .eps) from rfl]
    rw [reMatches_cat]
    match f, (by omega : t.length + 4 ≤ f) with
    | f2 + 1, hf2 =>
      have hstep : reMatches mflag (f2 + 1) (.chr '.') ('.' :: t) caps =
          [(t, caps)] := by
        rw [reMatches_chr]
        simp
      rw [hstep]
      simp only [List.flatMap_cons, List.flatMap_nil, List.append_nil]
      rw [reMatches_cat]
      rw [show sstar = RE.starG (.cls .space) from rfl]
      rw [reMatches_starG_cls mflag .space t caps f2 (by omega)]
      rw [space_test_eq]
      rw [List.flatMap_append, List.flatMap_map]
      match f2, (by omega : t.length + 2 ≤ f2) with
      | f3 + 1, hf3 =>
        simp only [reMatches_eps, List.flatMap_cons, List.flatMap_nil,
          List.append_nil]
        exact congrArg (fun l => l ++ [(t, caps)])
          (Eq.symm (List.map_eq_flatMap _ _))

theorem head_drops_append (t : List Char) (caps : Caps) (W : Nat) :
    (((List.range W).map (fun j => (t.drop (W - j), caps))) ++
      [(t, caps)]).head? = some (t.drop W, caps) := by
  cases W with
  | zero => simp
  | succ n =>
    rw [List.range_succ_eq_map]
    simp

theorem stripOrdSpec_eq_of_dot (s t : List Char)
    (h1 : s.takeWhile isDigitCh ≠ [])
    (h2 : s.dropWhile isDigitCh = '.' :: t) :
    stripOrdSpec s = t.dropWhile isJsSpace := by
  unfold stripOrdSpec
  rw [if_neg h1, h2]
  rfl

theorem stripOrdSpec_eq_self_of_nodot (s : List Char)
    (h2 : (s.dropWhile isDigitCh).head? ≠ some '.') :
    stripOrdSpec s = s := by
  unfold stripOrdSpec
  split
  · rfl
  · split
    · rename_i t heq
      rw [heq] at h2
      simp at h2
    · rfl

theorem replaceStartMatch_ordinalRx (s : List Char) :
    replaceStartMatch ordinalRx s = stripOrdSpec s := by
  unfold replaceStartMatch reExecAnchored
  rw [show reSize ordinalRx = 11 from rfl]
  rw [show ordinalRx = RE.cat dplus ordTail from rfl]
  rw [reMatches_cat]
  rw [reMatches_dplus false s [] (s.length + 11) (by omega)]
  rw [List.flatMap_map]
  cases hK : (s.takeWhile isDigitCh).length with
  | zero =>
    have htw : s.takeWhile isDigitCh = [] := List.length_eq_zero.mp hK
    simp only [hK, List.range_zero, List.flatMap_nil, List.head?_nil]
    simp [stripOrdSpec, htw]
  | succ L =>
    dsimp only
    have hne : s.takeWhile isDigitCh ≠ [] := by
      intro h0
      rw [h0] at hK
      simp at hK
    rw [List.range_succ_eq_map, List.flatMap_cons, List.flatMap_map]
    simp only [Nat.sub_zero]
    have hrest : ((List.range L).flatMap fun a =>
        reMatches false (s.length + 11) ordTail
          (List.drop (L + 1 - Nat.succ a) s) []) = [] := by
      rw [List.flatMap_eq_nil_iff]
      intro j hj
      rw [List.mem_range] at hj
      obtain ⟨c, t2, hdrop, hdig⟩ :=
        drop_head_sat isDigitCh s (L + 1 - Nat.succ j) (by omega)
      rw [hdrop]
      apply reMatches_ordTail_nodot
      simp only [List.head?_cons, ne_eq, Option.some.injEq]
      intro he
      rw [he] at hdig
      exact absurd hdig (by decide)
    rw [hrest, List.append_nil]
    rcases hdw : List.drop (L + 1) s with _ | ⟨c, t⟩
    · rw [reMatches_ordTail_nodot false [] [] (s.length + 11) (by simp)]
      simp only [List.head?_nil]
      rw [stripOrdSpec_eq_self_of_nodot s
        (by rw [dropWhile_eq_drop_len, hK, hdw]; simp)]
    · by_cases hc : c = '.'
      · subst hc
        have ht5 : t.length + 5 ≤ s.length + 11 := by
          have hlen := congrArg List.length hdw
          simp [List.length_drop] at hlen
          omega
        rw [reMatches_ordTail_dot false t [] (s.length + 11) ht5]
        rw [head_drops_append]
        rw [stripOrdSpec_eq_of_dot s t hne
          (by rw [dropWhile_eq_drop_len, hK, hdw])]
        rw [dropWhile_eq_drop_len]
      · rw [reMatches_ordTail_nodot false (c :: t) [] (s.length + 11)
          (by simp [hc])]
        simp only [List.head?_nil]
        rw [stripOrdSpec_eq_self_of_nodot s
          (by rw [dropWhile_eq_drop_len, hK, hdw]; simp [hc])]

/-- Claim C6 amended: after removing the matched timestamp substring, the
extractor strips a leading prefix of one or more digits followed by a dot
and an optional (possibly empty) run of whitespace when present at the very
start of the timestamp-stripped line, then trims; the stripping applies
unconditionally for every format (the line with a leading ordinal yields
the title Intro, not 1. Intro), applies whether or not whitespace follows
the dot, and applies only at the very start of the timestamp-stripped
line. -/
theorem ordinal_strip_amended :
    (∀ (line : String) (m : ReMatch),
        reSearch timestampRegex line.data = some m →
        (parseFlexibleTimestamps line).title =
          String.mk (jsTrimList (stripOrdSpec (m.pre ++ m.post)))) ∧
    parseFlexibleTimestamps "1. 0:00 Intro" =
      { timestamp := 0, title := "Intro" } ∧
    parseFlexibleTimestamps "1.Intro 0:00" =
      { timestamp := 0, title := "Intro" } ∧
    (parseFlexibleTimestamps "0:00 see 1. note").title = "see 1. note" := by
  refine ⟨?_, by decide, by decide, by decide⟩
  intro line m h
  unfold parseFlexibleTimestamps
  rw [h]
  have hrep : replaceFirstMatch timestampRegex line.data =
      m.pre ++ m.post := by
    unfold replaceFirstMatch
    rw [h]
  dsimp only
  rw [hrep, replaceStartMatch_ordinalRx]
  rfl

theorem ordinal_strip_amended_witness :
    (parseFlexibleTimestamps "1. 0:00 Intro").title =
      String.mk (jsTrimList (stripOrdSpec
        (['1', '.', ' '] ++ [' ', 'I', 'n', 't', 'r', 'o']))) :=
  ordinal_strip_amended.1 "1. 0:00 Intro"
    ⟨['1', '.', ' '], ['0', ':', '0', '0'], [' ', 'I', 'n', 't', 'r', 'o'],
      [(9, ['0', '0']), (8, ['0'])]⟩ (by decide)
